import Mathlib

/-!
# Verification of the napsocket TCP client/server subsystem

A shallow embedding of the napsocket sources (`socketpacket.h`,
`socketclient.cpp`, `socketserver.cpp`, `socketthread.cpp`) in Lean 4,
together with theorems settling the specification claims about them.

Modelling conventions:
* C++ byte buffers (`std::vector<nap::uint8>`) and `std::string` payloads are
  both sequences of bytes, modelled as `List Nat`.
* `asio::error_code` matters to the program only through its boolean
  conversion (`errorCode.operator bool()`), so errors are modelled as `Bool`
  (`true` = an error is present).
* NAP `SteadyTimer` is a monotonic stopwatch: `start()` and `reset()` both
  restart it from zero and `getMillis()` yields the time elapsed since the
  last restart.  A timer is modelled as the elapsed milliseconds (`Nat`);
  restarting sets it to `0`, and a separate `elapse` transition advances all
  timers uniformly.
* Side effects (signal triggers such as `connected`, `disconnected`,
  `dataReceived`, `postProcessSignal`) are modelled by returning a list of
  emitted events alongside the new state.
* The moodycamel concurrent FIFOs are modelled as lists: `enqueue` appends at
  the back, `try_dequeue` removes the head.
-/

/-- A byte string: C++ `std::string` / byte buffer contents as a byte list. -/
abbrev ByteStr := List Nat

/-- `SocketPacket` (socketpacket.h): owns a byte buffer `mBuffer`. -/
structure SocketPacket where
  mBuffer : List Nat
  deriving DecidableEq, Repr

/-- `SocketPacket(const std::string&)` (socketpacket.h line 39): copies the
string contents into the buffer via `std::copy` + `back_inserter`, i.e. the
bytes are appended one at a time. -/
def SocketPacket.ofString (s : ByteStr) : SocketPacket :=
  ⟨s.foldl (fun acc c => acc ++ [c]) []⟩

/-- `SocketPacket::data()` (socketpacket.h line 64). -/
def SocketPacket.data (p : SocketPacket) : List Nat := p.mBuffer

/-- `SocketPacket::size()` (socketpacket.h line 70). -/
def SocketPacket.size (p : SocketPacket) : Nat := p.mBuffer.length

/-- `SocketPacket::toString()` (socketpacket.h line 75): rebuilds a string
from the buffer bytes. -/
def SocketPacket.toString (p : SocketPacket) : ByteStr := p.mBuffer

/-- Observable client events: the signals triggered by `SocketClient`
(`connected`, `disconnected`, `dataReceived`, `postProcessSignal`). -/
inductive ClientEvent where
  | connected
  | disconnected
  | dataReceived (bytes : ByteStr)
  | postProcess
  deriving DecidableEq, Repr

/-- Deferred control actions submitted through `mActionQueue`
(socketclient.cpp: `connect()` line 89, `disconnect()` line 108 enqueue
lambdas; slot/logging actions do not touch the modelled state). -/
inductive ClientAction where
  | connect
  | disconnect
  deriving DecidableEq, Repr

/-- The state of a `SocketClient` (socketclient.h lines 152-173 plus the
asio socket of `SocketClient::Impl`).

`socketOpen` models `mImpl->mSocket.is_open()`; `sockShut` records that
`shutdown(shutdown_both)` was issued on the current socket.  `pendingConnect`,
`pendingWrite` and `pendingRead` record an outstanding asio async operation
whose completion handler has not run yet (they differ from
`mConnecting`/`mWritingData`/`mReceivingData` because the timeout paths clear
those flags while the asio operation is still outstanding).

`mGhostConnectWhileReady` is a history variable that is not in the source:
it records whether a queued connect action ever executed while
`mSocketReady` was `true`.  It influences no behaviour and exists only to
state the amended invariant of claim C6. -/
structure SocketClient where
  mSocketReady : Bool := false
  mConnecting : Bool := false
  mQueue : List SocketPacket := []
  mActionQueue : List ClientAction := []
  mWritingData : Bool := false
  mReceivingData : Bool := false
  mWriteBuffer : SocketPacket := ⟨[]⟩
  mReconnectTimer : Nat := 0
  mTimeoutTimer : Nat := 0
  mWriteResponseTimer : Nat := 0
  mReadResponseTimer : Nat := 0
  socketOpen : Bool := true
  sockShut : Bool := false
  pendingConnect : Bool := false
  pendingWrite : Bool := false
  pendingRead : Bool := false
  mEnableAutoReconnect : Bool := true
  mAutoReconnectIntervalMillis : Nat := 5000
  mConnectTimeOutMillis : Nat := 5000
  mReadTimeOutMillis : Nat := 200
  mWriteTimeOutMillis : Nat := 200
  mNoDelay : Bool := true
  mGhostConnectWhileReady : Bool := false
  deriving DecidableEq, Repr

/-- `SocketClient::send` (socketclient.cpp lines 152-159): the packet is
enqueued only if `mSocketReady` is loaded as `true`, otherwise it is
silently dropped. -/
def SocketClient.send (c : SocketClient) (message : SocketPacket) : SocketClient :=
  if c.mSocketReady then { c with mQueue := c.mQueue ++ [message] } else c

/-- `SocketClient::clearQueue` (socketclient.cpp lines 488-495): dequeues
until the FIFO is empty. -/
def SocketClient.clearQueue (c : SocketClient) : SocketClient :=
  { c with mQueue := [] }

/-- `SocketClient::isConnected` (socketclient.cpp line 498). -/
def SocketClient.isConnected (c : SocketClient) : Bool := c.mSocketReady

/-- `SocketClient::isConnecting` (socketclient.cpp line 504). -/
def SocketClient.isConnecting (c : SocketClient) : Bool := c.mConnecting

/-- The deferred action body of `SocketClient::connect` (socketclient.cpp
lines 91-104): if not already connecting, mark connecting, restart the
connect-deadline timer and issue `async_connect` on the remote endpoint
(asio opens the socket if it is not open before attempting the connection,
hence `socketOpen := true`, `sockShut := false`).
The ghost field records a connect executed while the socket was ready. -/
def SocketClient.connectAction (c : SocketClient) : SocketClient :=
  if !c.mConnecting then
    { c with mConnecting := true, mTimeoutTimer := 0,
             socketOpen := true, sockShut := false, pendingConnect := true,
             mGhostConnectWhileReady := c.mGhostConnectWhileReady || c.mSocketReady }
  else c

/-- The deferred action body of `SocketClient::disconnect` (socketclient.cpp
lines 110-136): shutdown + close the socket, clear the connecting and ready
flags, and trigger `disconnected`. -/
def SocketClient.disconnectAction (c : SocketClient) : SocketClient × List ClientEvent :=
  ({ c with socketOpen := false, sockShut := true,
            mConnecting := false, mSocketReady := false },
   [ClientEvent.disconnected])

/-- `SocketClient::handleConnect` (socketclient.cpp lines 162-221): the
connect attempt is finished, the connect-deadline timer is stopped; on
success (`errorCode` empty and setting the no-delay option succeeded) the
socket becomes ready, the reconnect timer is restarted, the message queue is
cleared and `connected` is triggered; on failure the socket is closed and
the reconnect timer is restarted if auto-reconnect is enabled. -/
def SocketClient.handleConnect (c0 : SocketClient) (errorCode noDelayErr : Bool) :
    SocketClient × List ClientEvent :=
  let c := { c0 with mConnecting := false, mTimeoutTimer := 0, pendingConnect := false }
  if !errorCode && !noDelayErr then
    ({ c with mSocketReady := true, mReconnectTimer := 0, mQueue := [] },
     [ClientEvent.connected])
  else
    ({ c with socketOpen := false,
              mReconnectTimer := if c.mEnableAutoReconnect then 0 else c.mReconnectTimer },
     [])

/-- `SocketClient::handleError` (socketclient.cpp lines 224-257): only when
the error code is non-empty *and* the socket is currently ready does it mark
the socket not ready, shut it down, restart the reconnect timer when
auto-reconnect is enabled and trigger `disconnected`, returning `true`;
in every other case it does nothing and returns `false`. -/
def SocketClient.handleError (c : SocketClient) (errorCode : Bool) :
    SocketClient × List ClientEvent × Bool :=
  if errorCode && c.mSocketReady then
    ({ c with mSocketReady := false, sockShut := true,
              mReconnectTimer := if c.mEnableAutoReconnect then 0 else c.mReconnectTimer },
     [ClientEvent.disconnected], true)
  else
    (c, [], false)

/-- Per-tick environment of `SocketClient::onProcess`: the outcome of
`mImpl->mSocket.available(err)` (socketclient.cpp line 339) when the read
phase polls it. -/
structure TickEnv where
  availErr : Bool := false
  available : Nat := 0
  deriving DecidableEq, Repr

/-- Running one drained action (socketclient.cpp lines 262-266 execute each
lambda dequeued from `mActionQueue`). -/
def SocketClient.runAction (c : SocketClient) (a : ClientAction) :
    SocketClient × List ClientEvent :=
  match a with
  | ClientAction.connect => (c.connectAction, [])
  | ClientAction.disconnect => c.disconnectAction

/-- The action-drain loop at the top of `SocketClient::onProcess`
(socketclient.cpp lines 262-266): every queued action is executed and the
queue is left empty. -/
def SocketClient.drainActions (c : SocketClient) : SocketClient × List ClientEvent :=
  c.mActionQueue.foldl
    (fun acc a =>
      let r := SocketClient.runAction acc.1 a
      (r.1, acc.2 ++ r.2))
    ({ c with mActionQueue := [] }, [])

/-- The write phase of `SocketClient::onProcess` (socketclient.cpp lines
276-334): if not currently writing, dequeue one packet, restart the
write-deadline timer and issue an `async_write` of exactly its bytes;
if currently writing and the write deadline has been exceeded, abandon the
attempt (clear the writing flag, mark the socket not ready, close it, and
restart the reconnect timer when auto-reconnect is enabled). -/
def SocketClient.writePhase (c : SocketClient) : SocketClient :=
  if !c.mWritingData then
    match c.mQueue with
    | [] => c
    | msg :: rest =>
      { c with mQueue := rest, mWritingData := true, mWriteResponseTimer := 0,
               mWriteBuffer := msg, pendingWrite := true }
  else
    if c.mWriteResponseTimer > c.mWriteTimeOutMillis then
      { c with mWriteResponseTimer := 0, mWritingData := false, mSocketReady := false,
               socketOpen := false,
               mReconnectTimer := if c.mEnableAutoReconnect then 0 else c.mReconnectTimer }
    else c

/-- The read phase of `SocketClient::onProcess` (socketclient.cpp lines
336-417).  If not currently receiving it polls `available(err)`; an error
there goes through `handleError`, and a *handled* error makes `onProcess`
return early (the `return` at line 343), reported by the `Bool` component.
Otherwise, with bytes available, it restarts the read-deadline timer and
issues an `async_read`.  If currently receiving and the read deadline has
been exceeded, the attempt is abandoned like a write timeout. -/
def SocketClient.readPhase (c : SocketClient) (env : TickEnv) :
    SocketClient × List ClientEvent × Bool :=
  if !c.mReceivingData then
    let r := c.handleError env.availErr
    if r.2.2 then (r.1, r.2.1, true)
    else
      let avail := if env.availErr then 0 else env.available
      if avail > 0 then
        ({ r.1 with mReceivingData := true, mReadResponseTimer := 0, pendingRead := true },
         r.2.1, false)
      else (r.1, r.2.1, false)
  else
    if c.mReadResponseTimer > c.mReadTimeOutMillis then
      ({ c with mReadResponseTimer := 0, mReceivingData := false, mSocketReady := false,
                socketOpen := false,
                mReconnectTimer := if c.mEnableAutoReconnect then 0 else c.mReconnectTimer },
       [], false)
    else (c, [], false)

/-- The branch of `SocketClient::onProcess` taken when the socket is ready
(socketclient.cpp lines 268-442) or not (lines 443-453).  With the socket
ready and open it runs the write phase then the read phase (whose `Bool`
reports the early return).  With the socket ready but not open it treats the
closed socket as a disconnect (lines 418-442): not ready any more, shutdown,
reconnect timer restarted when auto-reconnect is enabled, `disconnected`
triggered.  With the socket not ready it requests a reconnect (which merely
enqueues a connect action, since `connect()` posts to `mActionQueue`) once
the reconnect interval has elapsed and no connect is in progress. -/
def SocketClient.mainPhase (c : SocketClient) (env : TickEnv) :
    SocketClient × List ClientEvent × Bool :=
  if c.mSocketReady then
    if c.socketOpen then
      SocketClient.readPhase c.writePhase env
    else
      ({ c with mSocketReady := false, sockShut := true,
                mReconnectTimer := if c.mEnableAutoReconnect then 0 else c.mReconnectTimer },
       [ClientEvent.disconnected], false)
  else
    if c.mEnableAutoReconnect && !c.mConnecting then
      if c.mReconnectTimer > c.mAutoReconnectIntervalMillis then
        ({ c with mActionQueue := c.mActionQueue ++ [ClientAction.connect] }, [], false)
      else (c, [], false)
    else (c, [], false)

/-- The connect-timeout check at the bottom of `SocketClient::onProcess`
(socketclient.cpp lines 455-482): if connecting and the connect deadline has
been exceeded, the attempt is abandoned: the connect flag and timer are
cleared, the socket is closed, and the reconnect timer is restarted when
auto-reconnect is enabled. -/
def SocketClient.connectTimeoutPhase (c : SocketClient) : SocketClient :=
  if c.mConnecting then
    if c.mTimeoutTimer > c.mConnectTimeOutMillis then
      { c with mConnecting := false, mTimeoutTimer := 0, socketOpen := false,
               mReconnectTimer := if c.mEnableAutoReconnect then 0 else c.mReconnectTimer }
    else c
  else c

/-- `SocketClient::onProcess` (socketclient.cpp lines 260-485): drain the
action queue, run the main (write/read or reconnect) phase, and - unless the
read phase returned early at line 343 - run the connect-timeout check and
trigger `postProcessSignal`. -/
def SocketClient.onProcess (c0 : SocketClient) (env : TickEnv) :
    SocketClient × List ClientEvent :=
  let d := c0.drainActions
  let m := SocketClient.mainPhase d.1 env
  if m.2.2 then (m.1, d.2 ++ m.2.1)
  else (m.1.connectTimeoutPhase, d.2 ++ m.2.1 ++ [ClientEvent.postProcess])

/-- Whether a given call to `SocketClient::onProcess` takes the early
`return` at socketclient.cpp line 343 (an error polled from `available`
that `handleError` handled). -/
def SocketClient.onProcessEarly (c0 : SocketClient) (env : TickEnv) : Bool :=
  (SocketClient.mainPhase c0.drainActions.1 env).2.2

/-- Endpoint configuration fixed before start (socketclient.h lines 75-83). -/
structure ClientConfig where
  mConnectOnInit : Bool := true
  mEnableAutoReconnect : Bool := true
  mAutoReconnectIntervalMillis : Nat := 5000
  mConnectTimeOutMillis : Nat := 5000
  mReadTimeOutMillis : Nat := 200
  mWriteTimeOutMillis : Nat := 200
  mNoDelay : Bool := true
  deriving DecidableEq, Repr

/-- The client state right after a successful `SocketClient::onStart`
(socketclient.cpp lines 52-86): the socket has been opened, no flags are
set, and when `mConnectOnInit` holds `connect()` has enqueued one connect
action. -/
def SocketClient.initClient (cfg : ClientConfig) : SocketClient :=
  { mActionQueue := if cfg.mConnectOnInit then [ClientAction.connect] else [],
    socketOpen := true,
    mEnableAutoReconnect := cfg.mEnableAutoReconnect,
    mAutoReconnectIntervalMillis := cfg.mAutoReconnectIntervalMillis,
    mConnectTimeOutMillis := cfg.mConnectTimeOutMillis,
    mReadTimeOutMillis := cfg.mReadTimeOutMillis,
    mWriteTimeOutMillis := cfg.mWriteTimeOutMillis,
    mNoDelay := cfg.mNoDelay }

/-- External stimuli a `SocketClient` can receive, in any interleaving:
public API calls (which enqueue or act per the source), the periodic
`onProcess` tick, completion callbacks of the outstanding asio operations,
and the passage of time. -/
inductive ClientStimulus where
  | userConnect
  | userDisconnect
  | userSend (p : SocketPacket)
  | tick (env : TickEnv)
  | connectComplete (errorCode noDelayErr : Bool)
  | writeComplete (errorCode : Bool)
  | readComplete (errorCode : Bool) (bytes : ByteStr)
  | elapse (d : Nat)
  deriving DecidableEq, Repr

/-- Advance all stopwatches by `d` milliseconds (NAP `SteadyTimer` counts
monotonic time since its last restart). -/
def SocketClient.elapseTimers (c : SocketClient) (d : Nat) : SocketClient :=
  { c with mReconnectTimer := c.mReconnectTimer + d,
           mTimeoutTimer := c.mTimeoutTimer + d,
           mWriteResponseTimer := c.mWriteResponseTimer + d,
           mReadResponseTimer := c.mReadResponseTimer + d }

/-- One step of the client system.  `connect()`/`disconnect()` (called from
any thread) enqueue an action; `send` appends to the FIFO only when ready;
`tick` runs `onProcess`; the completion events run the asio handlers
(socketclient.cpp lines 289-299 for write, 355-383 for read, `handleConnect`
for connect) and are only possible while the matching operation is
outstanding. -/
def SocketClient.step (c : SocketClient) : ClientStimulus → SocketClient × List ClientEvent
  | ClientStimulus.userConnect =>
      ({ c with mActionQueue := c.mActionQueue ++ [ClientAction.connect] }, [])
  | ClientStimulus.userDisconnect =>
      ({ c with mActionQueue := c.mActionQueue ++ [ClientAction.disconnect] }, [])
  | ClientStimulus.userSend p => (c.send p, [])
  | ClientStimulus.tick env => c.onProcess env
  | ClientStimulus.connectComplete e nd =>
      if c.pendingConnect then c.handleConnect e nd else (c, [])
  | ClientStimulus.writeComplete e =>
      if c.pendingWrite then
        let c1 := { c with mWritingData := false, pendingWrite := false }
        let r := c1.handleError e
        ({ r.1 with mWriteResponseTimer := 0 }, r.2.1)
      else (c, [])
  | ClientStimulus.readComplete e bytes =>
      if c.pendingRead then
        let c1 := { c with mReceivingData := false, pendingRead := false,
                           mReadResponseTimer := 0 }
        let r := c1.handleError e
        if r.2.2 then (r.1, r.2.1)
        else (r.1, if bytes.isEmpty then [] else [ClientEvent.dataReceived bytes])
      else (c, [])
  | ClientStimulus.elapse d => (c.elapseTimers d, [])

/-- Run a sequence of stimuli from a state, accumulating emitted events. -/
def SocketClient.runTrace (c : SocketClient) (tr : List ClientStimulus) :
    SocketClient × List ClientEvent :=
  tr.foldl
    (fun acc s =>
      let r := SocketClient.step acc.1 s
      (r.1, acc.2 ++ r.2))
    (c, [])

/-! ## Packet round-trip (C7) -/

lemma foldl_append_singleton (s acc : List Nat) :
    s.foldl (fun a c => a ++ [c]) acc = acc ++ s := by
  induction s generalizing acc with
  | nil => simp
  | cons x xs ih => simp [List.foldl_cons, ih, List.append_assoc]

/-- Claim C7: for every string `s`, constructing a `SocketPacket` from `s`
and calling `toString` returns exactly `s`, and the packet size equals the
length of `s`. -/
theorem c7_packet_roundtrip (s : ByteStr) :
    (SocketPacket.ofString s).toString = s ∧ (SocketPacket.ofString s).size = s.length := by
  constructor
  · simp [SocketPacket.ofString, SocketPacket.toString, foldl_append_singleton]
  · simp [SocketPacket.ofString, SocketPacket.size, foldl_append_singleton]

/-! ## Client send (C4) -/

/-- Claim C4: `send` while Connected appends the packet at the back of the
outbound FIFO and changes nothing else; `send` while not Connected leaves
the client entirely unchanged (the packet is silently dropped). -/
theorem c4_send_spec (c : SocketClient) (p : SocketPacket) :
    (c.mSocketReady = true → c.send p = { c with mQueue := c.mQueue ++ [p] }) ∧
    (c.mSocketReady = false → c.send p = c) := by
  constructor <;> intro h <;> simp [SocketClient.send, h]

/-- Witness for C4 at concrete inputs: a ready client enqueues, a
non-ready client is unchanged. -/
theorem c4_send_spec_witness :
    ({ mSocketReady := true } : SocketClient).send ⟨[7]⟩
        = { mSocketReady := true, mQueue := [⟨[7]⟩] } ∧
    ({ mSocketReady := false } : SocketClient).send ⟨[7]⟩
        = { mSocketReady := false } := by
  refine ⟨?_, ?_⟩
  · have h := (c4_send_spec { mSocketReady := true } ⟨[7]⟩).1 rfl
    simpa using h
  · exact (c4_send_spec { mSocketReady := false } ⟨[7]⟩).2 rfl

/-! ## Client connect action (C5) -/

/-- Claim C5: the deferred connect action is a no-op if the client is
already Connecting; otherwise it leaves the socket open (asio's
`async_connect` opens the socket when it is not open), restarts the
connect-deadline timer, transitions to Connecting, and leaves a non-blocking
connect outstanding (whose completion callback is `handleConnect`). -/
theorem c5_connect_spec (c : SocketClient) :
    (c.mConnecting = true → c.connectAction = c) ∧
    (c.mConnecting = false →
      c.connectAction.isConnecting = true ∧
      c.connectAction.socketOpen = true ∧
      c.connectAction.mTimeoutTimer = 0 ∧
      c.connectAction.pendingConnect = true) := by
  constructor <;> intro h <;>
    simp [SocketClient.connectAction, SocketClient.isConnecting, h]

/-- Witness for C5 at concrete inputs: a connecting client is unchanged, a
non-connecting client transitions. -/
theorem c5_connect_spec_witness :
    ({ mConnecting := true } : SocketClient).connectAction = { mConnecting := true } ∧
    ({ mConnecting := false } : SocketClient).connectAction.isConnecting = true := by
  refine ⟨(c5_connect_spec { mConnecting := true }).1 rfl,
          ((c5_connect_spec { mConnecting := false }).2 rfl).1⟩

/-! ## Connect completion clears the FIFO (C1) -/

/-- Claim C1 is false on the code: a client holding a queued packet has its
FIFO cleared by a successful connect completion (`clearQueue()` is called
at socketclient.cpp line 195), so the queued packet does not remain. -/
theorem c1_counterexample :
    (({ mQueue := [⟨[42]⟩], mConnecting := true, pendingConnect := true } :
        SocketClient).handleConnect false false).1.mQueue = [] ∧
    ({ mQueue := [⟨[42]⟩], mConnecting := true, pendingConnect := true } :
        SocketClient).mQueue = [⟨[42]⟩] := by
  decide

/-- Claim C1 (amended): when a connect attempt completes successfully the
outbound FIFO *is* cleared - every previously queued packet is dropped - and
the `connected` notification is emitted. -/
theorem c1_amended (c : SocketClient) :
    (c.handleConnect false false).1.mQueue = [] ∧
    (c.handleConnect false false).2 = [ClientEvent.connected] := by
  simp [SocketClient.handleConnect]

/-! ## Client error handler (C3) -/

/-- Claim C3 is false on the code at a concrete input: with a non-empty
error code but a client that is not Connected, `handleError` returns
`false` even though an error was present (socketclient.cpp line 256). -/
theorem c3_counterexample :
    (({ mSocketReady := false } : SocketClient).handleError true).2.2 = false := by
  decide

/-- Claim C3 (amended): if the error code is non-empty and the client is
Connected, `handleError` marks it not-Connected, shuts the socket down,
restarts the reconnect timer when auto-reconnect is enabled and emits
`disconnected`; if the client is not Connected (or the code is empty) it
changes no state and emits nothing; and its boolean result reports whether
an error was present *and handled*, i.e. it is `true` exactly when the code
was non-empty and the client was Connected. -/
theorem c3_amended (c : SocketClient) (err : Bool) :
    ((c.handleError err).2.2 = (err && c.mSocketReady)) ∧
    (err = true → c.mSocketReady = true →
      (c.handleError err).1.mSocketReady = false ∧
      (c.handleError err).1.sockShut = true ∧
      ((c.handleError err).1.mReconnectTimer
          = if c.mEnableAutoReconnect then 0 else c.mReconnectTimer) ∧
      (c.handleError err).2.1 = [ClientEvent.disconnected]) ∧
    (c.mSocketReady = false → c.handleError err = (c, [], false)) ∧
    (err = false → c.handleError err = (c, [], false)) := by
  refine ⟨?_, ?_, ?_, ?_⟩
  · by_cases h1 : err <;> by_cases h2 : c.mSocketReady <;>
      simp [SocketClient.handleError, h1, h2]
  · intro h1 h2; simp [SocketClient.handleError, h1, h2]
  · intro h; simp [SocketClient.handleError, h]
  · intro h; simp [SocketClient.handleError, h]

/-- Witness for C3 (amended) at concrete inputs: an error while Connected
transitions and reports `true`; an error while not Connected is ignored. -/
theorem c3_amended_witness :
    (({ mSocketReady := true, mEnableAutoReconnect := true } : SocketClient).handleError
        true).1.mSocketReady = false ∧
    ({ mSocketReady := false } : SocketClient).handleError true
        = ({ mSocketReady := false }, [], false) := by
  refine ⟨((c3_amended { mSocketReady := true, mEnableAutoReconnect := true } true).2.1
      rfl rfl).1, (c3_amended { mSocketReady := false } true).2.2.1 rfl⟩

/-! ## The post-process notification (C2) -/

/-- Test for the post-process notification among emitted events. -/
def isPostEv (e : ClientEvent) : Bool := e = ClientEvent.postProcess

lemma getLast?_append_singleton {α : Type} (l : List α) (a : α) :
    (l ++ [a]).getLast? = some a := by
  induction l with
  | nil => rfl
  | cons x xs ih =>
    cases xs with
    | nil => rfl
    | cons y ys => simpa using ih

lemma runAction_no_postProcess (c : SocketClient) (a : ClientAction) :
    ((SocketClient.runAction c a).2).countP isPostEv = 0 := by
  cases a <;> simp [SocketClient.runAction, SocketClient.disconnectAction, isPostEv]

lemma drainFold_no_postProcess (l : List ClientAction) (s : SocketClient)
    (evs : List ClientEvent) :
    ((l.foldl (fun acc a =>
        let r := SocketClient.runAction acc.1 a
        (r.1, acc.2 ++ r.2)) (s, evs)).2).countP isPostEv = evs.countP isPostEv := by
  induction l generalizing s evs with
  | nil => rfl
  | cons a as ih =>
    simp only [List.foldl_cons]
    rw [ih]
    simp [List.countP_append, runAction_no_postProcess]

lemma drainActions_no_postProcess (c : SocketClient) :
    ((c.drainActions).2).countP isPostEv = 0 := by
  unfold SocketClient.drainActions
  rw [drainFold_no_postProcess]
  rfl

lemma handleError_no_postProcess (c : SocketClient) (err : Bool) :
    ((c.handleError err).2.1).countP isPostEv = 0 := by
  unfold SocketClient.handleError
  split <;> simp [isPostEv]

lemma readPhase_no_postProcess (c : SocketClient) (env : TickEnv) :
    ((c.readPhase env).2.1).countP isPostEv = 0 := by
  have h0 := handleError_no_postProcess c env.availErr
  unfold SocketClient.readPhase
  rcases hre : c.handleError env.availErr with ⟨c1, evs, handled⟩
  rw [hre] at h0
  simp only [hre]
  split
  · split
    · simpa using h0
    · split <;> first
        | simpa using h0
        | (split <;> simpa using h0)
  · split <;> simp

lemma mainPhase_no_postProcess (c : SocketClient) (env : TickEnv) :
    ((SocketClient.mainPhase c env).2.1).countP isPostEv = 0 := by
  unfold SocketClient.mainPhase
  split
  · split
    · exact readPhase_no_postProcess _ _
    · simp [isPostEv]
  · split
    · split <;> simp
    · simp

/-- Claim C2 is false on the code at a concrete input: a Connected client
whose `available()` poll reports an error takes the early `return` at
socketclient.cpp line 343, and that `onProcess` call emits no post-process
notification at all (it emits only `disconnected`). -/
theorem c2_counterexample :
    ((({ mSocketReady := true } : SocketClient).onProcess
        { availErr := true }).2).countP isPostEv = 0 ∧
    (({ mSocketReady := true } : SocketClient).onProcess
        { availErr := true }).2 = [ClientEvent.disconnected] := by
  decide

/-- Claim C2 (amended): every `work()` call emits the post-process
notification exactly once, as its last event, *except* when the call takes
the early return at socketclient.cpp line 343 (an error was detected while
polling available bytes with the client Connected, the socket open and no
read in flight, and `handleError` handled it), in which case the call
returns without emitting it. -/
theorem c2_amended (c : SocketClient) (env : TickEnv) :
    ((c.onProcess env).2).countP isPostEv = (if c.onProcessEarly env then 0 else 1) ∧
    (c.onProcessEarly env = false →
      ((c.onProcess env).2).getLast? = some ClientEvent.postProcess) := by
  have hd := drainActions_no_postProcess c
  have hm := mainPhase_no_postProcess (c.drainActions).1 env
  unfold SocketClient.onProcess SocketClient.onProcessEarly
  by_cases h : (SocketClient.mainPhase (c.drainActions).1 env).2.2 = true
  · simp [h, List.countP_append, hd, hm]
  · simp [h, List.countP_append, hd, hm, isPostEv,
      getLast?_append_singleton ((c.drainActions).2 ++ (SocketClient.mainPhase (c.drainActions).1 env).2.1)]

/-- Witness for C2 (amended) at a concrete input: an idle Connected client
with no error emits the post-process notification exactly once, at the end. -/
theorem c2_amended_witness :
    ((({ mSocketReady := true } : SocketClient).onProcess {}).2).countP isPostEv = 1 ∧
    ((({ mSocketReady := true } : SocketClient).onProcess {}).2).getLast?
        = some ClientEvent.postProcess := by
  have h := c2_amended ({ mSocketReady := true } : SocketClient) {}
  refine ⟨?_, h.2 (by decide)⟩
  have he : ({ mSocketReady := true } : SocketClient).onProcessEarly {} = false := by decide
  rw [h.1, he]
  rfl

/-! ## The three-state indicator invariant (C6) -/

/-- The amended C6 invariant: the `connecting` and `connected` indicators
are never simultaneously true unless a queued connect action has at some
point executed while the socket was ready (tracked by the ghost field). -/
def ClientInv (c : SocketClient) : Prop :=
  c.mConnecting = true → c.mSocketReady = true → c.mGhostConnectWhileReady = true

lemma inv_connectAction (c : SocketClient) (h : ClientInv c) :
    ClientInv c.connectAction := by
  unfold ClientInv SocketClient.connectAction at *
  split <;> simp_all

lemma inv_disconnectAction (c : SocketClient) (_h : ClientInv c) :
    ClientInv (c.disconnectAction).1 := by
  unfold ClientInv SocketClient.disconnectAction at *
  simp

lemma inv_runAction (c : SocketClient) (a : ClientAction) (h : ClientInv c) :
    ClientInv (SocketClient.runAction c a).1 := by
  cases a with
  | connect => exact inv_connectAction c h
  | disconnect => exact inv_disconnectAction c h

lemma inv_drainFold (l : List ClientAction) (c : SocketClient) (evs : List ClientEvent)
    (h : ClientInv c) :
    ClientInv ((l.foldl (fun acc a =>
        let r := SocketClient.runAction acc.1 a
        (r.1, acc.2 ++ r.2)) (c, evs)).1) := by
  induction l generalizing c evs with
  | nil => exact h
  | cons a as ih => exact ih _ _ (inv_runAction c a h)

lemma inv_drainActions (c : SocketClient) (h : ClientInv c) :
    ClientInv (c.drainActions).1 := by
  unfold SocketClient.drainActions
  exact inv_drainFold _ _ _ (by simpa [ClientInv] using h)

lemma inv_writePhase (c : SocketClient) (h : ClientInv c) :
    ClientInv c.writePhase := by
  unfold ClientInv SocketClient.writePhase at *
  split
  · split <;> simp_all
  · split <;> simp_all

lemma inv_handleError (c : SocketClient) (err : Bool) (h : ClientInv c) :
    ClientInv (c.handleError err).1 := by
  unfold ClientInv SocketClient.handleError at *
  split <;> simp_all

lemma inv_readPhase (c : SocketClient) (env : TickEnv) (h : ClientInv c) :
    ClientInv (c.readPhase env).1 := by
  have h1 := inv_handleError c env.availErr h
  unfold SocketClient.readPhase
  rcases hre : c.handleError env.availErr with ⟨c1, evs, handled⟩
  rw [hre] at h1
  simp only [hre]
  unfold ClientInv at *
  split
  · split
    · simpa using h1
    · split <;> first
        | simpa using h1
        | (split <;> simpa using h1)
  · split <;> simp_all

lemma inv_mainPhase (c : SocketClient) (env : TickEnv) (h : ClientInv c) :
    ClientInv (SocketClient.mainPhase c env).1 := by
  unfold SocketClient.mainPhase
  split
  · split
    · exact inv_readPhase _ env (inv_writePhase c h)
    · unfold ClientInv at *; simp_all
  · split
    · split
      · unfold ClientInv at *; simp_all
      · exact h
    · exact h

lemma inv_connectTimeoutPhase (c : SocketClient) (h : ClientInv c) :
    ClientInv c.connectTimeoutPhase := by
  unfold ClientInv SocketClient.connectTimeoutPhase at *
  split
  · split <;> simp_all
  · exact h

lemma inv_onProcess (c : SocketClient) (env : TickEnv) (h : ClientInv c) :
    ClientInv (c.onProcess env).1 := by
  have hm := inv_mainPhase (c.drainActions).1 env (inv_drainActions c h)
  by_cases hc : (SocketClient.mainPhase (c.drainActions).1 env).2.2 = true
  · show ClientInv (SocketClient.onProcess c env).1
    simp only [SocketClient.onProcess, hc, if_true]
    exact hm
  · show ClientInv (SocketClient.onProcess c env).1
    simp only [SocketClient.onProcess, hc, if_false]
    exact inv_connectTimeoutPhase _ hm

lemma inv_handleConnect (c : SocketClient) (e nd : Bool) (_h : ClientInv c) :
    ClientInv (c.handleConnect e nd).1 := by
  unfold ClientInv SocketClient.handleConnect at *
  split <;> simp_all

lemma inv_step (c : SocketClient) (s : ClientStimulus) (h : ClientInv c) :
    ClientInv (c.step s).1 := by
  cases s with
  | userConnect => exact h
  | userDisconnect => exact h
  | userSend p =>
      simp only [SocketClient.step]
      unfold ClientInv SocketClient.send at *
      split <;> simp_all
  | tick env => exact inv_onProcess c env h
  | connectComplete e nd =>
      simp only [SocketClient.step]
      split
      · exact inv_handleConnect c e nd h
      · exact h
  | writeComplete e =>
      simp only [SocketClient.step]
      split
      · have h1 : ClientInv { c with mWritingData := false, pendingWrite := false } := h
        have h2 := inv_handleError { c with mWritingData := false, pendingWrite := false } e h1
        exact fun hc hr => h2 hc hr
      · exact h
  | readComplete e bytes =>
      simp only [SocketClient.step]
      split
      · have h1 : ClientInv
            { c with mReceivingData := false, pendingRead := false, mReadResponseTimer := 0 } := h
        have h2 := inv_handleError
            { c with mReceivingData := false, pendingRead := false, mReadResponseTimer := 0 } e h1
        split <;> exact h2
      · exact h
  | elapse d => exact h

lemma inv_runTraceAux (tr : List ClientStimulus) (c : SocketClient)
    (evs : List ClientEvent) (h : ClientInv c) :
    ClientInv ((tr.foldl (fun acc s =>
        let r := SocketClient.step acc.1 s
        (r.1, acc.2 ++ r.2)) (c, evs)).1) := by
  induction tr generalizing c evs with
  | nil => exact h
  | cons s ts ih => exact ih _ _ (inv_step c s h)

lemma inv_runTrace (c : SocketClient) (tr : List ClientStimulus) (h : ClientInv c) :
    ClientInv (c.runTrace tr).1 := by
  unfold SocketClient.runTrace
  exact inv_runTraceAux tr c [] h

/-- The stimulus trace refuting claim C6: start with connect-on-init, let
the connect attempt complete successfully, then call `connect()` again and
let the next tick drain it. -/
def c6Trace : List ClientStimulus :=
  [ClientStimulus.tick {}, ClientStimulus.connectComplete false false,
   ClientStimulus.userConnect, ClientStimulus.tick {}]

/-- Claim C6 is false on the code: from the initial state, after a
successful connect, calling `connect()` again and ticking once reaches a
state in which `isConnecting` and `isConnected` are *both* true (the
deferred connect action checks only `mConnecting`, never `mSocketReady`). -/
theorem c6_counterexample :
    (SocketClient.runTrace (SocketClient.initClient {}) c6Trace).1.isConnecting = true ∧
    (SocketClient.runTrace (SocketClient.initClient {}) c6Trace).1.isConnected = true := by
  decide

/-- Claim C6 (amended): in every state reachable from the initial client
state by any interleaving of connect, disconnect, send, work-tick calls,
completion callbacks and time passage, the `isConnecting` and `isConnected`
indicators are never simultaneously true - *provided* no queued connect
action has executed while the client was Connected (the ghost history flag
is false).  The unamended claim fails exactly because a `connect()` issued
while Connected makes both indicators true. -/
theorem c6_amended (cfg : ClientConfig) (tr : List ClientStimulus)
    (h : (SocketClient.runTrace (SocketClient.initClient cfg) tr).1.mGhostConnectWhileReady
        = false) :
    ¬((SocketClient.runTrace (SocketClient.initClient cfg) tr).1.isConnecting = true ∧
      (SocketClient.runTrace (SocketClient.initClient cfg) tr).1.isConnected = true) := by
  have hinit : ClientInv (SocketClient.initClient cfg) := by
    unfold ClientInv SocketClient.initClient
    simp
  have hfin := inv_runTrace (SocketClient.initClient cfg) tr hinit
  rintro ⟨h1, h2⟩
  unfold SocketClient.isConnecting at h1
  unfold SocketClient.isConnected at h2
  rw [hfin h1 h2] at h
  simp at h

/-- Witness for C6 (amended): on the empty trace the ghost flag is false
and the indicators are indeed not both true. -/
theorem c6_amended_witness :
    ¬((SocketClient.runTrace (SocketClient.initClient {}) []).1.isConnecting = true ∧
      (SocketClient.runTrace (SocketClient.initClient {}) []).1.isConnected = true) :=
  c6_amended {} [] (by decide)

/-! ## The server (socketserver.cpp) -/

/-- Observable server events: the signals triggered by `SocketServer`
(`socketConnected`, `socketDisconnected`, `packetReceived`). -/
inductive ServerEvent where
  | socketConnected (id : String)
  | socketDisconnected (id : String)
  | packetReceived (id : String) (msg : SocketPacket)
  deriving DecidableEq, Repr

/-- `SocketPacket(const uint8*, size_t)` (socketpacket.h line 58): a plain
copy of the given bytes. -/
def SocketPacket.ofBytes (b : ByteStr) : SocketPacket := ⟨b⟩

/-- One established per-connection socket as the server sees it:
`isOpen` models `socket.is_open()`, `shut` records an issued
`shutdown(shutdown_both)`. -/
structure ServerSock where
  isOpen : Bool := true
  shut : Bool := false
  deriving DecidableEq, Repr

/-- The state of a `SocketServer` (socketserver.h lines 142-150 and the
asio sockets of `SocketServer::Impl`): the map from connection ID to its
socket, the map from connection ID to its private outbound FIFO, and the
deferred removal list.  The `std::unordered_map`s have unique keys and are
modelled as association lists. -/
structure SocketServer where
  mSockets : List (String × ServerSock) := []
  mMessageQueue : List (String × List SocketPacket) := []
  mSocketsToRemove : List String := []
  deriving DecidableEq, Repr

/-- `std::unordered_map::erase(key)`: with unique keys, removing the entry
for `id` is filtering it out. -/
def eraseKey {α : Type} (l : List (String × α)) (id : String) : List (String × α) :=
  l.filter (fun e => !(e.1 = id : Bool))

/-- `std::unordered_map::find`. -/
def lookupKey {α : Type} : List (String × α) → String → Option α
  | [], _ => none
  | e :: rest, id => if e.1 = id then some e.2 else lookupKey rest id

/-- The FIFO stored for `id` (`mMessageQueue.find(id)->second`; `onProcess`
asserts the entry exists, so the default for a missing key is immaterial). -/
def getQueueD (l : List (String × List SocketPacket)) (id : String) : List SocketPacket :=
  (lookupKey l id).getD []

/-- Replace the FIFO stored under `id` (in-place mutation of the mapped
value; no entry is inserted). -/
def setQueue (l : List (String × List SocketPacket)) (id : String) (q : List SocketPacket) :
    List (String × List SocketPacket) :=
  l.map (fun e => if e.1 = id then (e.1, q) else e)

/-- `it->second.shutdown(shutdown_both, err)` on the socket stored under
`id`: in-place mutation of the mapped socket. -/
def shutSock (l : List (String × ServerSock)) (id : String) : List (String × ServerSock) :=
  l.map (fun e => if e.1 = id then (e.1, { e.2 with shut := true }) else e)

/-- `SocketServer::handleError` (socketserver.cpp lines 179-204): if the
error code is empty, return `false` having done nothing; otherwise shut
down the socket stored under `id`, append `id` to the deferred removal
list, trigger `socketDisconnected(id)` and return `true`. -/
def SocketServer.handleError (st : SocketServer) (id : String) (err : Bool) :
    SocketServer × List ServerEvent × Bool :=
  if err then
    ({ st with mSockets := shutSock st.mSockets id,
               mSocketsToRemove := st.mSocketsToRemove ++ [id] },
     [ServerEvent.socketDisconnected id], true)
  else (st, [], false)

/-- The effect of `handleError` on a connection that did report an error
(`handleError` returns `true` exactly when its error argument is set, so
`onProcess`'s `if (handleError(id, err)) continue;` takes this path). -/
def SocketServer.dropConn (st : SocketServer) (id : String) :
    SocketServer × List ServerEvent :=
  ((st.handleError id true).1, (st.handleError id true).2.1)

/-- The send drain loop of `SocketServer::onProcess` (socketserver.cpp
lines 242-248): dequeue and send until the FIFO is empty or a send fails
(`sendErrAt = some k` makes the k-th send fail, counting from 0; `none`
means every send succeeds).  Returns the remaining FIFO and whether a send
error occurred; the failing packet has already been dequeued. -/
def sendLoop : List SocketPacket → Option Nat → List SocketPacket × Bool
  | [], _ => ([], false)
  | _ :: rest, some 0 => (rest, true)
  | _ :: rest, some (n + 1) => sendLoop rest (some n)
  | _ :: rest, none => sendLoop rest none

/-- Per-connection tick environment: the outcome of the non-blocking sends,
of the `available(err)` poll, of the `receive`, and the buffer chunks the
receive produced. -/
structure SockEnv where
  sendErrAt : Option Nat := none
  availErr : Bool := false
  recvErr : Bool := false
  chunks : List ByteStr := []
  deriving DecidableEq, Repr

/-- The per-connection body of `SocketServer::onProcess` (socketserver.cpp
lines 228-281): skip a closed socket; otherwise drain the FIFO with
non-blocking sends, and on a send error, an `available` error or a receive
error route through `handleError` and stop touching this connection for
the tick; with no error, emit `packetReceived` for every non-empty buffer
chunk obtained. -/
def SocketServer.processOne (st : SocketServer) (e : String × ServerSock) (env : SockEnv) :
    SocketServer × List ServerEvent :=
  if e.2.isOpen then
    let res := sendLoop (getQueueD st.mMessageQueue e.1) env.sendErrAt
    let st1 := { st with mMessageQueue := setQueue st.mMessageQueue e.1 res.1 }
    if res.2 then st1.dropConn e.1
    else if env.availErr then st1.dropConn e.1
    else if env.recvErr then st1.dropConn e.1
    else (st1, (env.chunks.filter (fun ch => ch.length > 0)).map
        (fun ch => ServerEvent.packetReceived e.1 (SocketPacket.ofBytes ch)))
  else (st, [])

/-- The removal sweep at the top of `SocketServer::onProcess`
(socketserver.cpp lines 220-226): each deferred ID's socket entry and FIFO
are erased together, then the removal list is cleared. -/
def SocketServer.sweepRemovals (st : SocketServer) : SocketServer :=
  { st with mSockets := st.mSocketsToRemove.foldl (fun l i => eraseKey l i) st.mSockets,
            mMessageQueue := st.mSocketsToRemove.foldl (fun l i => eraseKey l i) st.mMessageQueue,
            mSocketsToRemove := [] }

/-- The connection loop of `SocketServer::onProcess`: iterate the (swept)
socket map in order, threading the state and accumulating events. -/
def serverFold (env : String → SockEnv) (l : List (String × ServerSock))
    (acc : SocketServer × List ServerEvent) : SocketServer × List ServerEvent :=
  l.foldl (fun acc e =>
      let r := SocketServer.processOne acc.1 e (env e.1)
      (r.1, acc.2 ++ r.2)) acc

/-- `SocketServer::onProcess` (socketserver.cpp lines 218-283): apply the
deferred removal list, then process every connection once, in map order. -/
def SocketServer.onProcess (s : SocketServer) (env : String → SockEnv) :
    SocketServer × List ServerEvent :=
  serverFold env s.sweepRemovals.mSockets (s.sweepRemovals, [])

/-- `SocketServer::getConnectedClientIDs` (socketserver.cpp lines 317-325). -/
def SocketServer.getConnectedClientIDs (st : SocketServer) : List String :=
  st.mSockets.map Prod.fst

/-- `SocketServer::getConnectedClientsCount` (socketserver.cpp line 328). -/
def SocketServer.getConnectedClientsCount (st : SocketServer) : Nat :=
  st.mSockets.length

/-- `SocketServer::send` (socketserver.cpp lines 166-176): enqueue on the
FIFO for `id` when it exists, otherwise log and do nothing. -/
def SocketServer.send (st : SocketServer) (id : String) (msg : SocketPacket) : SocketServer :=
  if (lookupKey st.mMessageQueue id).isSome then
    { st with mMessageQueue := setQueue st.mMessageQueue id (getQueueD st.mMessageQueue id ++ [msg]) }
  else st

/-- `SocketServer::sendToAll` (socketserver.cpp lines 157-163): enqueue a
copy on every known connection's FIFO. -/
def SocketServer.sendToAll (st : SocketServer) (msg : SocketPacket) : SocketServer :=
  { st with mMessageQueue := st.mMessageQueue.map (fun e => (e.1, e.2 ++ [msg])) }

/-- Whether the per-connection processing of `e` fails during this tick
(a send error while draining its FIFO, an `available` error, or a receive
error, all only possible on an open socket). -/
def SocketServer.connFails (st : SocketServer) (e : String × ServerSock) (env : SockEnv) : Bool :=
  e.2.isOpen &&
    ((sendLoop (getQueueD st.mMessageQueue e.1) env.sendErrAt).2 || env.availErr || env.recvErr)

/-- Claim C10: for every server state and connection ID, `handleError` with
an empty (no-error) code returns `false` and is a complete no-op: no socket
is shut down, nothing is appended to the deferred removal list, and no
`socketDisconnected` notification is emitted. -/
theorem c10_handleError_noop (st : SocketServer) (id : String) :
    st.handleError id false = (st, [], false) := by
  simp [SocketServer.handleError]

/-! ## Key/lookup lemmas for the server maps (C8) -/

/-- Test for the `socketDisconnected id` notification. -/
def isDiscEv (id : String) (ev : ServerEvent) : Bool :=
  ev = ServerEvent.socketDisconnected id

lemma keys_setQueue (l : List (String × List SocketPacket)) (id : String)
    (q : List SocketPacket) :
    (setQueue l id q).map Prod.fst = l.map Prod.fst := by
  induction l with
  | nil => rfl
  | cons e rest ih =>
      by_cases h : e.1 = id <;> simp [setQueue, h] at ih ⊢ <;> exact ih

lemma keys_shutSock (l : List (String × ServerSock)) (id : String) :
    (shutSock l id).map Prod.fst = l.map Prod.fst := by
  induction l with
  | nil => rfl
  | cons e rest ih =>
      by_cases h : e.1 = id <;> simp [shutSock, h] at ih ⊢ <;> exact ih

lemma setQueue_cons (e : String × List SocketPacket) (rest : List (String × List SocketPacket))
    (id : String) (q : List SocketPacket) :
    setQueue (e :: rest) id q = (if e.1 = id then (e.1, q) else e) :: setQueue rest id q := rfl

lemma lookupKey_cons {α : Type} (e : String × α) (rest : List (String × α)) (id : String) :
    lookupKey (e :: rest) id = if e.1 = id then some e.2 else lookupKey rest id := rfl

lemma eraseKey_cons {α : Type} (e : String × α) (rest : List (String × α)) (id : String) :
    eraseKey (e :: rest) id
      = if e.1 = id then eraseKey rest id else e :: eraseKey rest id := by
  by_cases h : e.1 = id <;> simp [eraseKey, h]

lemma lookupKey_setQueue_ne (l : List (String × List SocketPacket)) (id id' : String)
    (q : List SocketPacket) (h : id' ≠ id) :
    lookupKey (setQueue l id q) id' = lookupKey l id' := by
  induction l with
  | nil => rfl
  | cons e rest ih =>
      rw [setQueue_cons, lookupKey_cons e rest id']
      by_cases h1 : e.1 = id
      · rw [if_pos h1, lookupKey_cons]
        have h2 : ¬(e.1 = id') := by rw [h1]; exact fun hc => h hc.symm
        dsimp only
        rw [if_neg h2, if_neg h2, ih]
      · rw [if_neg h1, lookupKey_cons]
        by_cases h2 : e.1 = id'
        · rw [if_pos h2, if_pos h2]
        · rw [if_neg h2, if_neg h2, ih]

lemma getQueueD_setQueue_ne (l : List (String × List SocketPacket)) (id id' : String)
    (q : List SocketPacket) (h : id' ≠ id) :
    getQueueD (setQueue l id q) id' = getQueueD l id' := by
  unfold getQueueD
  rw [lookupKey_setQueue_ne l id id' q h]

lemma mem_eraseKey_ne {α : Type} (l : List (String × α)) (i id : String) (x : α)
    (hmem : (id, x) ∈ l) (hne : id ≠ i) : (id, x) ∈ eraseKey l i := by
  unfold eraseKey
  refine List.mem_filter.2 ⟨hmem, ?_⟩
  simp [hne]

lemma mem_foldl_eraseKey {α : Type} (rem : List String) (l : List (String × α))
    (id : String) (x : α) (hmem : (id, x) ∈ l) (hnr : id ∉ rem) :
    (id, x) ∈ rem.foldl (fun m i => eraseKey m i) l := by
  induction rem generalizing l with
  | nil => exact hmem
  | cons r rs ih =>
      have hne : id ≠ r := fun hc => hnr (hc ▸ List.mem_cons_self r rs)
      have hnr' : id ∉ rs := fun hc => hnr (List.mem_cons_of_mem r hc)
      exact ih (eraseKey l r) (mem_eraseKey_ne l r id x hmem hne) hnr'

lemma not_mem_keys_eraseKey {α : Type} (l : List (String × α)) (id : String) :
    id ∉ (eraseKey l id).map Prod.fst := by
  intro hmem
  obtain ⟨e, he, hfst⟩ := List.mem_map.1 hmem
  have := (List.mem_filter.1 he).2
  simp [hfst] at this

lemma not_mem_keys_eraseKey_of {α : Type} (l : List (String × α)) (i id : String)
    (h : id ∉ l.map Prod.fst) : id ∉ (eraseKey l i).map Prod.fst := by
  intro hmem
  obtain ⟨e, he, hfst⟩ := List.mem_map.1 hmem
  exact h (List.mem_map.2 ⟨e, (List.mem_filter.1 he).1, hfst⟩)

lemma not_mem_keys_foldl_eraseKey_of {α : Type} (rem : List String)
    (l : List (String × α)) (id : String) (h : id ∉ l.map Prod.fst) :
    id ∉ (rem.foldl (fun m i => eraseKey m i) l).map Prod.fst := by
  induction rem generalizing l with
  | nil => exact h
  | cons r rs ih => exact ih (eraseKey l r) (not_mem_keys_eraseKey_of l r id h)

lemma not_mem_keys_foldl_eraseKey {α : Type} (rem : List String)
    (l : List (String × α)) (id : String) (h : id ∈ rem) :
    id ∉ (rem.foldl (fun m i => eraseKey m i) l).map Prod.fst := by
  induction rem generalizing l with
  | nil => cases h
  | cons r rs ih =>
      by_cases hr : id = r
      · subst hr
        exact fun hc => not_mem_keys_foldl_eraseKey_of rs (eraseKey l id) id
          (not_mem_keys_eraseKey l id) hc
      · have hm : id ∈ rs := by
          rcases List.mem_cons.1 h with h1 | h1
          · exact absurd h1 hr
          · exact h1
        exact ih (eraseKey l r) hm

lemma mem_keys_foldl_eraseKey {α : Type} (rem : List String) (l : List (String × α))
    (id : String) (h : id ∈ l.map Prod.fst) (hnr : id ∉ rem) :
    id ∈ (rem.foldl (fun m i => eraseKey m i) l).map Prod.fst := by
  obtain ⟨e, he, hfst⟩ := List.mem_map.1 h
  have : (id, e.2) ∈ l := by
    have : e = (id, e.2) := by
      cases e; simp at hfst; simp [hfst]
    exact this ▸ he
  exact List.mem_map.2 ⟨(id, e.2), mem_foldl_eraseKey rem l id e.2 this hnr, rfl⟩

lemma lookupKey_eraseKey_ne {α : Type} (l : List (String × α)) (i id : String)
    (h : id ≠ i) : lookupKey (eraseKey l i) id = lookupKey l id := by
  induction l with
  | nil => rfl
  | cons e rest ih =>
      rw [eraseKey_cons, lookupKey_cons e rest id]
      by_cases h1 : e.1 = i
      · rw [if_pos h1]
        have h2 : ¬(e.1 = id) := by rw [h1]; exact fun hc => h hc.symm
        rw [if_neg h2, ih]
      · rw [if_neg h1, lookupKey_cons]
        by_cases h2 : e.1 = id
        · rw [if_pos h2, if_pos h2]
        · rw [if_neg h2, if_neg h2, ih]

lemma getQueueD_foldl_eraseKey (rem : List String)
    (l : List (String × List SocketPacket)) (id : String) (hnr : id ∉ rem) :
    getQueueD (rem.foldl (fun m i => eraseKey m i) l) id = getQueueD l id := by
  induction rem generalizing l with
  | nil => rfl
  | cons r rs ih =>
      have hne : id ≠ r := fun hc => hnr (hc ▸ List.mem_cons_self r rs)
      have hnr' : id ∉ rs := fun hc => hnr (List.mem_cons_of_mem r hc)
      rw [List.foldl_cons, ih (eraseKey l r) hnr']
      unfold getQueueD
      rw [lookupKey_eraseKey_ne l r id hne]

lemma foldl_eraseKey_sublist {α : Type} (rem : List String) (l : List (String × α)) :
    (rem.foldl (fun m i => eraseKey m i) l).Sublist l := by
  induction rem generalizing l with
  | nil => exact List.Sublist.refl l
  | cons r rs ih =>
      exact List.Sublist.trans (ih (eraseKey l r)) (List.filter_sublist l)

/-! ## Per-connection processing lemmas (C8) -/

/-- The state after the send drain loop has written back the remaining
FIFO for connection `id`. -/
def SocketServer.afterSend (st : SocketServer) (id : String) (env : SockEnv) : SocketServer :=
  { st with mMessageQueue :=
      setQueue st.mMessageQueue id (sendLoop (getQueueD st.mMessageQueue id) env.sendErrAt).1 }

lemma processOne_cases (st : SocketServer) (e : String × ServerSock) (env : SockEnv) :
    st.processOne e env
      = if st.connFails e env then
          SocketServer.dropConn (st.afterSend e.1 env) e.1
        else if e.2.isOpen then
          (st.afterSend e.1 env,
           (env.chunks.filter (fun ch => ch.length > 0)).map
             (fun ch => ServerEvent.packetReceived e.1 (SocketPacket.ofBytes ch)))
        else (st, []) := by
  by_cases ho : e.2.isOpen <;>
    by_cases h1 : (sendLoop (getQueueD st.mMessageQueue e.1) env.sendErrAt).2 <;>
    by_cases h2 : env.availErr <;>
    by_cases h3 : env.recvErr <;>
    simp [SocketServer.processOne, SocketServer.connFails, SocketServer.afterSend,
      ho, h1, h2, h3]

lemma dropConn_state (st : SocketServer) (id : String) :
    (st.dropConn id).1
      = { st with mSockets := shutSock st.mSockets id,
                  mSocketsToRemove := st.mSocketsToRemove ++ [id] } ∧
    (st.dropConn id).2 = [ServerEvent.socketDisconnected id] := by
  simp [SocketServer.dropConn, SocketServer.handleError]

lemma processOne_keys_sockets (st : SocketServer) (e : String × ServerSock) (env : SockEnv) :
    ((st.processOne e env).1.mSockets).map Prod.fst = st.mSockets.map Prod.fst := by
  rw [processOne_cases]
  split
  · rw [(dropConn_state _ _).1]
    exact keys_shutSock st.mSockets e.1
  · split <;> rfl

lemma afterSend_keys_mq (st : SocketServer) (id : String) (env : SockEnv) :
    ((st.afterSend id env).mMessageQueue).map Prod.fst = st.mMessageQueue.map Prod.fst := by
  unfold SocketServer.afterSend
  exact keys_setQueue st.mMessageQueue id _

lemma afterSend_queue_ne (st : SocketServer) (id id2 : String) (env : SockEnv)
    (h : id2 ≠ id) :
    getQueueD (st.afterSend id env).mMessageQueue id2 = getQueueD st.mMessageQueue id2 := by
  unfold SocketServer.afterSend
  exact getQueueD_setQueue_ne st.mMessageQueue id id2 _ h

lemma processOne_keys_mq (st : SocketServer) (e : String × ServerSock) (env : SockEnv) :
    ((st.processOne e env).1.mMessageQueue).map Prod.fst
      = st.mMessageQueue.map Prod.fst := by
  rw [processOne_cases]
  split
  · rw [(dropConn_state _ _).1]
    exact afterSend_keys_mq st e.1 env
  · split
    · exact afterSend_keys_mq st e.1 env
    · rfl

lemma processOne_toRemove (st : SocketServer) (e : String × ServerSock) (env : SockEnv) :
    (st.processOne e env).1.mSocketsToRemove
      = st.mSocketsToRemove ++ (if st.connFails e env then [e.1] else []) := by
  rw [processOne_cases]
  split
  · rw [(dropConn_state _ _).1]
    simp [SocketServer.afterSend]
  · split <;> simp [SocketServer.afterSend]

lemma processOne_count (st : SocketServer) (e : String × ServerSock) (env : SockEnv)
    (id : String) :
    ((st.processOne e env).2).countP (isDiscEv id)
      = if e.1 = id ∧ st.connFails e env = true then 1 else 0 := by
  rw [processOne_cases]
  split
  · rw [(dropConn_state _ _).2]
    by_cases hid : e.1 = id <;> simp_all [isDiscEv, List.countP_cons]
  · split
    · rw [List.countP_eq_zero.2 ?_]
      · simp_all
      · intro ev hev
        obtain ⟨ch, hch, hev2⟩ := List.mem_map.1 hev
        simp [← hev2, isDiscEv]
    · simp_all

lemma processOne_queue_ne (st : SocketServer) (e : String × ServerSock) (env : SockEnv)
    (id : String) (h : e.1 ≠ id) :
    getQueueD ((st.processOne e env).1.mMessageQueue) id
      = getQueueD st.mMessageQueue id := by
  have hne : id ≠ e.1 := fun hc => h hc.symm
  rw [processOne_cases]
  split
  · rw [(dropConn_state _ _).1]
    exact afterSend_queue_ne st e.1 id env hne
  · split
    · exact afterSend_queue_ne st e.1 id env hne
    · rfl

lemma processOne_toRemove_mono (st : SocketServer) (e : String × ServerSock) (env : SockEnv)
    (id : String) (h : id ∈ st.mSocketsToRemove) :
    id ∈ (st.processOne e env).1.mSocketsToRemove := by
  rw [processOne_toRemove]
  exact List.mem_append_left _ h

/-! ## Connection-loop lemmas (C8) -/

lemma serverFold_cons (env : String → SockEnv) (e : String × ServerSock)
    (l : List (String × ServerSock)) (acc : SocketServer × List ServerEvent) :
    serverFold env (e :: l) acc
      = serverFold env l ((SocketServer.processOne acc.1 e (env e.1)).1,
          acc.2 ++ (SocketServer.processOne acc.1 e (env e.1)).2) := rfl

lemma serverFold_append (env : String → SockEnv) (l1 l2 : List (String × ServerSock))
    (acc : SocketServer × List ServerEvent) :
    serverFold env (l1 ++ l2) acc = serverFold env l2 (serverFold env l1 acc) := by
  unfold serverFold
  rw [List.foldl_append]

lemma serverFold_keys_sockets (env : String → SockEnv) (l : List (String × ServerSock))
    (acc : SocketServer × List ServerEvent) :
    ((serverFold env l acc).1.mSockets).map Prod.fst = (acc.1.mSockets).map Prod.fst := by
  induction l generalizing acc with
  | nil => rfl
  | cons e rest ih =>
      rw [serverFold_cons, ih]
      exact processOne_keys_sockets acc.1 e (env e.1)

lemma serverFold_keys_mq (env : String → SockEnv) (l : List (String × ServerSock))
    (acc : SocketServer × List ServerEvent) :
    ((serverFold env l acc).1.mMessageQueue).map Prod.fst
      = (acc.1.mMessageQueue).map Prod.fst := by
  induction l generalizing acc with
  | nil => rfl
  | cons e rest ih =>
      rw [serverFold_cons, ih]
      exact processOne_keys_mq acc.1 e (env e.1)

lemma serverFold_toRemove_mono (env : String → SockEnv) (l : List (String × ServerSock))
    (acc : SocketServer × List ServerEvent) (id : String)
    (h : id ∈ acc.1.mSocketsToRemove) :
    id ∈ (serverFold env l acc).1.mSocketsToRemove := by
  induction l generalizing acc with
  | nil => exact h
  | cons e rest ih =>
      rw [serverFold_cons]
      exact ih _ (processOne_toRemove_mono acc.1 e (env e.1) id h)

lemma serverFold_count_ne (env : String → SockEnv) (l : List (String × ServerSock))
    (acc : SocketServer × List ServerEvent) (id : String)
    (hne : ∀ e ∈ l, e.1 ≠ id) :
    ((serverFold env l acc).2).countP (isDiscEv id) = acc.2.countP (isDiscEv id) := by
  induction l generalizing acc with
  | nil => rfl
  | cons e rest ih =>
      rw [serverFold_cons, ih _ (fun e2 he2 => hne e2 (List.mem_cons_of_mem e he2))]
      rw [List.countP_append, processOne_count]
      have hno : ¬(e.1 = id ∧ acc.1.connFails e (env e.1) = true) :=
        fun hc => hne e (List.mem_cons_self e rest) hc.1
      rw [if_neg hno]
      exact Nat.add_zero _

lemma serverFold_queue_ne (env : String → SockEnv) (l : List (String × ServerSock))
    (acc : SocketServer × List ServerEvent) (id : String)
    (hne : ∀ e ∈ l, e.1 ≠ id) :
    getQueueD (serverFold env l acc).1.mMessageQueue id
      = getQueueD acc.1.mMessageQueue id := by
  induction l generalizing acc with
  | nil => rfl
  | cons e rest ih =>
      rw [serverFold_cons, ih _ (fun e2 he2 => hne e2 (List.mem_cons_of_mem e he2))]
      exact processOne_queue_ne acc.1 e (env e.1) id (hne e (List.mem_cons_self e rest))

/-- Claim C8: a Server connection that fails during a tick gets exactly one
`socketDisconnected` notification for its ID; its socket entry and its
outbound FIFO are *not* removed during the failing tick (they are still
present afterwards, together) but the ID is put on the deferred removal
list; and on the next tick, whatever happens then, the socket entry and
the FIFO are removed together and the ID is absent from
`getConnectedClientIDs`. -/
theorem c8_server_disconnect (s : SocketServer) (id : String) (sock : ServerSock)
    (env : String → SockEnv)
    (hnodupS : (s.mSockets.map Prod.fst).Nodup)
    (hmem : (id, sock) ∈ s.mSockets)
    (hnr : id ∉ s.mSocketsToRemove)
    (hq : id ∈ s.mMessageQueue.map Prod.fst)
    (hfail : s.connFails (id, sock) (env id) = true) :
    ((s.onProcess env).2).countP (isDiscEv id) = 1 ∧
    id ∈ (s.onProcess env).1.getConnectedClientIDs ∧
    id ∈ ((s.onProcess env).1.mMessageQueue.map Prod.fst) ∧
    id ∈ (s.onProcess env).1.mSocketsToRemove ∧
    (∀ env2 : String → SockEnv,
      id ∉ ((s.onProcess env).1.onProcess env2).1.getConnectedClientIDs ∧
      id ∉ (((s.onProcess env).1.onProcess env2).1.mMessageQueue.map Prod.fst)) := by
  have hop : s.onProcess env
      = serverFold env (s.sweepRemovals).mSockets (s.sweepRemovals, []) := rfl
  have hsockets : (s.sweepRemovals).mSockets
      = s.mSocketsToRemove.foldl (fun m i => eraseKey m i) s.mSockets := rfl
  have hmq : (s.sweepRemovals).mMessageQueue
      = s.mSocketsToRemove.foldl (fun m i => eraseKey m i) s.mMessageQueue := rfl
  have hmem2 : (id, sock) ∈ (s.sweepRemovals).mSockets := by
    rw [hsockets]; exact mem_foldl_eraseKey _ _ _ _ hmem hnr
  have hnodup2 : ((s.sweepRemovals).mSockets.map Prod.fst).Nodup := by
    rw [hsockets]
    exact hnodupS.sublist (List.Sublist.map Prod.fst (foldl_eraseKey_sublist _ _))
  have hqswept : getQueueD (s.sweepRemovals).mMessageQueue id
      = getQueueD s.mMessageQueue id := by
    rw [hmq]; exact getQueueD_foldl_eraseKey _ _ _ hnr
  have hqkeys : id ∈ (s.sweepRemovals).mMessageQueue.map Prod.fst := by
    rw [hmq]; exact mem_keys_foldl_eraseKey _ _ _ hq hnr
  obtain ⟨l1, l2, hsplit⟩ := List.append_of_mem hmem2
  have hkeys_eq : (s.sweepRemovals).mSockets.map Prod.fst
      = l1.map Prod.fst ++ id :: l2.map Prod.fst := by
    rw [hsplit]; simp
  have hnd : (l1.map Prod.fst ++ id :: l2.map Prod.fst).Nodup := hkeys_eq ▸ hnodup2
  rw [List.nodup_append] at hnd
  obtain ⟨hnd1, hnd2, hdisj⟩ := hnd
  have hid2 : id ∉ l2.map Prod.fst := (List.nodup_cons.1 hnd2).1
  have hid1 : id ∉ l1.map Prod.fst := fun hmem1 => hdisj hmem1 (List.mem_cons_self _ _)
  have hne1 : ∀ e ∈ l1, e.1 ≠ id := fun e he hc =>
    hid1 (hc ▸ List.mem_map_of_mem Prod.fst he)
  have hne2 : ∀ e ∈ l2, e.1 ≠ id := fun e he hc =>
    hid2 (hc ▸ List.mem_map_of_mem Prod.fst he)
  have hA := serverFold_queue_ne env l1 (s.sweepRemovals, []) id hne1
  have hAcnt := serverFold_count_ne env l1 (s.sweepRemovals, []) id hne1
  have hfold : serverFold env (s.sweepRemovals).mSockets (s.sweepRemovals, [])
      = serverFold env l2
          ((SocketServer.processOne (serverFold env l1 (s.sweepRemovals, [])).1 (id, sock)
              (env id)).1,
           (serverFold env l1 (s.sweepRemovals, [])).2
             ++ (SocketServer.processOne (serverFold env l1 (s.sweepRemovals, [])).1 (id, sock)
              (env id)).2) := by
    rw [hsplit, serverFold_append, serverFold_cons]
  have hfailA : (serverFold env l1 (s.sweepRemovals, [])).1.connFails (id, sock) (env id)
      = true := by
    unfold SocketServer.connFails at hfail ⊢
    dsimp only at hfail ⊢
    rw [hA, hqswept]
    exact hfail
  have hcntB : ((SocketServer.processOne (serverFold env l1 (s.sweepRemovals, [])).1
      (id, sock) (env id)).2).countP (isDiscEv id) = 1 := by
    rw [processOne_count]
    rw [if_pos ⟨rfl, hfailA⟩]
  have hcnt : ((s.onProcess env).2).countP (isDiscEv id) = 1 := by
    rw [hop, hfold, serverFold_count_ne env l2 _ id hne2, List.countP_append, hAcnt, hcntB]
    simp
  have hkeysS : (s.onProcess env).1.mSockets.map Prod.fst
      = (s.sweepRemovals).mSockets.map Prod.fst := by
    rw [hop]; exact serverFold_keys_sockets env _ _
  have hkeysQ : (s.onProcess env).1.mMessageQueue.map Prod.fst
      = (s.sweepRemovals).mMessageQueue.map Prod.fst := by
    rw [hop]; exact serverFold_keys_mq env _ _
  have hmemS : id ∈ (s.onProcess env).1.getConnectedClientIDs := by
    unfold SocketServer.getConnectedClientIDs
    rw [hkeysS]
    exact List.mem_map_of_mem Prod.fst hmem2
  have hmemQ : id ∈ (s.onProcess env).1.mMessageQueue.map Prod.fst := by
    rw [hkeysQ]; exact hqkeys
  have hrem : id ∈ (s.onProcess env).1.mSocketsToRemove := by
    rw [hop, hfold]
    apply serverFold_toRemove_mono
    rw [processOne_toRemove, if_pos hfailA]
    exact List.mem_append_right _ (List.mem_singleton.2 rfl)
  refine ⟨hcnt, hmemS, hmemQ, hrem, ?_⟩
  intro env2
  have hop2 : (s.onProcess env).1.onProcess env2
      = serverFold env2 (((s.onProcess env).1.sweepRemovals).mSockets)
          ((s.onProcess env).1.sweepRemovals, []) := rfl
  have hno_s : id ∉ (((s.onProcess env).1.sweepRemovals).mSockets.map Prod.fst) :=
    not_mem_keys_foldl_eraseKey _ _ _ hrem
  have hno_q : id ∉ (((s.onProcess env).1.sweepRemovals).mMessageQueue.map Prod.fst) :=
    not_mem_keys_foldl_eraseKey _ _ _ hrem
  constructor
  · unfold SocketServer.getConnectedClientIDs
    rw [hop2, serverFold_keys_sockets]
    exact hno_s
  · rw [hop2, serverFold_keys_mq]
    exact hno_q

/-- Witness for C8 at concrete inputs: a single connection "a" whose
`available` poll errors during the tick gets exactly one `socketDisconnected`
notification, and is gone from `getConnectedClientIDs` after the next tick. -/
def c8WitnessServer : SocketServer :=
  { mSockets := [("a", { isOpen := true, shut := false })], mMessageQueue := [("a", [])] }

def c8WitnessEnv : String → SockEnv := fun _ => { availErr := true }

theorem c8_server_disconnect_witness :
    ((c8WitnessServer.onProcess c8WitnessEnv).2).countP (isDiscEv "a") = 1 ∧
    "a" ∉ ((c8WitnessServer.onProcess c8WitnessEnv).1.onProcess
        (fun _ => {})).1.getConnectedClientIDs := by
  have h := c8_server_disconnect c8WitnessServer "a" { isOpen := true, shut := false }
      c8WitnessEnv (by decide) (by decide) (by decide) (by decide) (by decide)
  exact ⟨h.1, (h.2.2.2.2 (fun _ => {})).1⟩

/-! ## The poller tick (socketthread.cpp, C9) -/

/-- The observable operations of one `SocketThread::process` call, in
order. -/
inductive ThreadOp where
  | lockAcquire
  | restartContext
  | work (adapter : Nat)
  | poll
  | logDrainError
  | lockRelease
  deriving DecidableEq, Repr

/-- `SocketThread::registerAdapter` (socketthread.cpp lines 145-150):
appends to the adapter vector under the mutex, so the registry order is the
registration order (adapters are identified here by opaque numbers). -/
def registerAdapter (adapters : List Nat) (a : Nat) : List Nat := adapters ++ [a]

/-- `SocketThread::process` (socketthread.cpp lines 104-123) as its ordered
effect trace: the `std::lock_guard` holds `mMutex` from entry to exit; a
stopped io context is restarted; each registered adapter's `process()` is
invoked once, in registry order; then `mIOService.poll(err)` drains the
ready completions, and a drain error is only logged.  The function returns
`void`, so the trace is the complete observable behaviour - there is no
propagated error. -/
def SocketThread.process (adapters : List Nat) (ioStopped pollErr : Bool) : List ThreadOp :=
  [ThreadOp.lockAcquire]
    ++ (if ioStopped then [ThreadOp.restartContext] else [])
    ++ adapters.map ThreadOp.work
    ++ [ThreadOp.poll]
    ++ (if pollErr then [ThreadOp.logDrainError] else [])
    ++ [ThreadOp.lockRelease]

/-- Extract the adapter of a work invocation. -/
def workOf : ThreadOp → Option Nat
  | ThreadOp.work a => some a
  | _ => none

lemma filterMap_workOf_map (ad : List Nat) :
    (ad.map ThreadOp.work).filterMap workOf = ad := by
  induction ad with
  | nil => rfl
  | cons a as ih => simp [List.filterMap_cons, workOf, ih]

lemma filterMap_workOf_comp (ad : List Nat) :
    ad.filterMap (workOf ∘ ThreadOp.work) = ad := by
  induction ad with
  | nil => rfl
  | cons a as ih => simp [List.filterMap_cons, workOf, Function.comp, ih]

lemma process_concat (adapters : List Nat) (ioStopped pollErr : Bool) :
    SocketThread.process adapters ioStopped pollErr
      = ([ThreadOp.lockAcquire]
          ++ (if ioStopped then [ThreadOp.restartContext] else [])
          ++ adapters.map ThreadOp.work ++ [ThreadOp.poll]
          ++ (if pollErr then [ThreadOp.logDrainError] else []))
        ++ [ThreadOp.lockRelease] := by
  simp [SocketThread.process, List.append_assoc]

/-- Claim C9: one tick of the poller holds the registry lock for the whole
call (it is the first operation acquired and the last released, exactly once
each); every registered adapter's work callback is invoked exactly once, in
registration order; the io-context drain happens only after all adapters
have been invoked; and a drain error is logged, never propagated - filtering
the log entry out of an erroring tick's trace yields exactly the trace of a
non-erroring tick. -/
theorem c9_tick_spec (adapters : List Nat) (ioStopped pollErr : Bool) :
    (SocketThread.process adapters ioStopped pollErr).head? = some ThreadOp.lockAcquire ∧
    (SocketThread.process adapters ioStopped pollErr).getLast? = some ThreadOp.lockRelease ∧
    ((SocketThread.process adapters ioStopped pollErr).countP
        (fun op => op = ThreadOp.lockAcquire)) = 1 ∧
    ((SocketThread.process adapters ioStopped pollErr).countP
        (fun op => op = ThreadOp.lockRelease)) = 1 ∧
    (∃ pre post, SocketThread.process adapters ioStopped pollErr
          = pre ++ ThreadOp.poll :: post ∧
        pre.filterMap workOf = adapters ∧
        post.filterMap workOf = [] ∧
        ThreadOp.poll ∉ pre) ∧
    ((SocketThread.process adapters ioStopped true).filter
        (fun op => ¬(op = ThreadOp.logDrainError))
      = SocketThread.process adapters ioStopped false) := by
  refine ⟨?_, ?_, ?_, ?_, ?_, ?_⟩
  · simp [SocketThread.process]
  · rw [process_concat]
    exact getLast?_append_singleton _ _
  · have h1 : ((adapters.map ThreadOp.work).countP
        (fun op => op = ThreadOp.lockAcquire)) = 0 := by
      rw [List.countP_eq_zero]
      intro op hop
      obtain ⟨a, ha, hop2⟩ := List.mem_map.1 hop
      simp [← hop2]
    cases ioStopped <;> cases pollErr <;>
      simp [SocketThread.process, List.countP_append, h1]
  · have h1 : ((adapters.map ThreadOp.work).countP
        (fun op => op = ThreadOp.lockRelease)) = 0 := by
      rw [List.countP_eq_zero]
      intro op hop
      obtain ⟨a, ha, hop2⟩ := List.mem_map.1 hop
      simp [← hop2]
    cases ioStopped <;> cases pollErr <;>
      simp [SocketThread.process, List.countP_append, h1]
  · refine ⟨[ThreadOp.lockAcquire]
        ++ (if ioStopped then [ThreadOp.restartContext] else [])
        ++ adapters.map ThreadOp.work,
      (if pollErr then [ThreadOp.logDrainError] else []) ++ [ThreadOp.lockRelease],
      ?_, ?_, ?_, ?_⟩
    · simp [SocketThread.process, List.append_assoc]
    · cases ioStopped <;>
        simp [List.filterMap_append, List.filterMap_cons, workOf, filterMap_workOf_map,
          filterMap_workOf_comp]
    · cases pollErr <;> simp [List.filterMap_append, List.filterMap_cons, workOf]
    · intro hmem
      rcases List.mem_append.1 hmem with h1 | h1
      · rcases List.mem_append.1 h1 with h2 | h2
        · simp at h2
        · cases ioStopped <;> simp at h2
      · obtain ⟨a, ha, hop2⟩ := List.mem_map.1 h1
        cases hop2
  · cases ioStopped <;>
      simp [SocketThread.process, List.filter_append]
